import Mathlib

/-!
Verification development for the ferry mock-interview application.

This file gives a shallow embedding of the program's core:

* `withRetry` — the bounded-retry wrapper of `services/geminiService.ts`;
* `pcmToWav` / `generateSpeech` — the PCM→WAV container transformation;
* `generateAnalysis` / `generateQuestions` — the structured endpoints;
* `evaluateMockResponse` — the per-answer evaluation call with its
  error-absorbing fallback;
* the mock-interview session controller of `components/MockInterviewView.tsx`
  (`selectQuestions`, `handleSkip`, `processAnswer`, `moveToNext`) as a step
  function over an explicit session state, driven by a list of events;
* `handleMockComplete` of `App.tsx`.

Modelling conventions:

* Promise-returning host calls are modelled as `Except`-valued environment
  oracles: the i-th invocation of the AI client inside one service call is
  `oracle i`, which either rejects (`Except.error`, carrying an opaque `Nat`
  token standing for the thrown JS error) or resolves.
* A response's JSON text is classified by its `JSON.parse` outcome
  (`RespText`): the parser itself is a host primitive, so strings are
  represented by how they parse.  `RespText.empty` covers a falsy
  (`undefined`/`null`/`""`) `response.text`, for which the source parses the
  literal `'{}'`.
* JS objects produced by `JSON.parse` are modelled by the inductive `Json`;
  reading a string-valued property is `Json.getStr` (a property that is
  absent or not a string reads as `none`, as `undefined` would).
* Binary data (`Uint8Array`, blob contents) is `List Nat`, one byte per
  entry; `DataView.setUintN` truncation is the `% 256` in `u16le`/`u32le`.
* `blobToBase64` wraps a `FileReader`, whose promise can reject through
  `reader.onerror`; an audio blob therefore carries its encoding outcome
  (`AudioBlob.encoded`).  A rejection there happens *before* the `try` block
  of `evaluateMockResponse` and so escapes it.
* React state updates are sequentialized: each handler is one atomic step on
  the session state, and events are handled only while the view is showing a
  question (the input controls of the source are only rendered then).
-/

namespace Ferry

/-! ## JSON values -/

/-- A JSON value as produced by `JSON.parse`.  Numbers are integers: no
fractional literal is ever inspected by the program. -/
inductive Json where
  | null : Json
  | bool (b : Bool) : Json
  | num (n : Int) : Json
  | str (s : String) : Json
  | arr (elems : List Json) : Json
  | obj (fields : List (String × Json)) : Json

/-- Property lookup on a JSON value: `j[k]` for an object, `undefined`
(`none`) otherwise. -/
def Json.getField : Json → String → Option Json
  | .obj fields, k => (fields.find? (fun p => p.1 == k)).map (·.2)
  | _, _ => none

/-- Read a string-valued property; a missing or non-string property reads as
`none`. -/
def Json.getStr (j : Json) (k : String) : Option String :=
  match j.getField k with
  | some (.str s) => some s
  | _ => none

/-- JS truthiness of a JSON value (`undefined` is handled by callers via
`Option`).  Note an empty array or object is truthy. -/
def Json.truthy : Json → Bool
  | .null => false
  | .bool b => b
  | .num n => n != 0
  | .str s => s != ""
  | .arr _ => true
  | .obj _ => true

/-- The text of a `GenerateContentResponse`, classified by what
`JSON.parse(text || '{}')` would do with it: `empty` is a falsy text (the
source then parses `'{}'`), `invalid` a truthy text that throws a
`SyntaxError`, `valid j` a truthy text parsing to `j`. -/
inductive RespText where
  | empty : RespText
  | invalid (s : String) : RespText
  | valid (j : Json) : RespText

/-- `JSON.parse(response.text || '{}')`. -/
def jsParse : RespText → Except Unit Json
  | .empty => .ok (Json.obj [])
  | .invalid _ => .error ()
  | .valid j => .ok j

/-- The slice of `GenerateContentResponse` the services read: the `text`
accessor, and `candidates?.[0]?.content?.parts?.[0]?.inlineData?.data`
already base64-decoded to bytes (`base64ToUint8Array` is a fixed decoding
of the host). -/
structure GenerateContentResponse where
  text : RespText
  inlineAudioData : Option (List Nat)

/-! ## withRetry -/

/-- Loop body of `withRetry`: `i` is the index of the next attempt,
`remaining` how many attempts are left, `last` the `lastError` variable.
Returns the outcome together with the number of calls made to `fn`.
(The exponential-backoff `setTimeout` between attempts suspends but does not
change any state, so it has no footprint here.) -/
def withRetryGo (fn : Nat → Except ε α) (i : Nat) :
    Nat → Option ε → Except (Option ε) α × Nat
  | 0, last => (.error last, 0)
  | remaining + 1, _ =>
    match fn i with
    | .ok a => (.ok a, 1)
    | .error e =>
      let rest := withRetryGo fn (i + 1) remaining (some e)
      (rest.1, rest.2 + 1)

/-- `withRetry(fn, retries)`: run `fn` up to `retries` times, return the
first success; when every attempt fails, re-throw `lastError` (which is
still `undefined`, i.e. `none`, if no attempt ever ran).  The second
component counts how often `fn` was invoked. -/
def withRetry (fn : Nat → Except ε α) (retries : Nat) :
    Except (Option ε) α × Nat :=
  withRetryGo fn 0 retries none

/-! ## PCM → WAV -/

/-- Little-endian 16-bit write, as `DataView.setUint16(…, true)` stores it. -/
def u16le (n : Nat) : List Nat := [n % 256, (n / 256) % 256]

/-- Little-endian 32-bit write, as `DataView.setUint32(…, true)` stores it
(values ≥ 2^32 are truncated exactly as the host truncates them). -/
def u32le (n : Nat) : List Nat :=
  [n % 256, (n / 256) % 256, (n / 65536) % 256, (n / 16777216) % 256]

/-- Value of a little-endian byte string. -/
def leVal : List Nat → Nat
  | [] => 0
  | b :: bs => b + 256 * leVal bs

/-- Decode the `count`-byte little-endian field at byte offset `off` of a
byte string (how a WAV reader interprets a header field). -/
def readLE (l : List Nat) (off count : Nat) : Nat :=
  leVal ((l.drop off).take count)

/-- `pcmToWav(pcmData, sampleRate)`: the 44-byte canonical WAV header
followed by the PCM bytes.  The header is written field by field at
non-overlapping offsets in the source; concatenating the fields in offset
order reproduces the buffer.  The ASCII tag bytes are the `writeString`
char codes of `"RIFF"`, `"WAVE"`, `"fmt "` and `"data"`. -/
def pcmToWav (pcmData : List Nat) (sampleRate : Nat) : List Nat :=
  [82, 73, 70, 70]                                 -- "RIFF"
  ++ u32le (36 + pcmData.length)                   -- chunk size
  ++ [87, 65, 86, 69]                              -- "WAVE"
  ++ [102, 109, 116, 32]                           -- "fmt "
  ++ u32le 16                                      -- fmt chunk size
  ++ u16le 1                                       -- PCM format tag
  ++ u16le 1                                       -- numChannels = 1 (mono)
  ++ u32le sampleRate
  ++ u32le (sampleRate * 1 * 2)                    -- byteRate
  ++ u16le (1 * 2)                                 -- blockAlign
  ++ u16le 16                                      -- bits per sample
  ++ [100, 97, 116, 97]                            -- "data"
  ++ u32le pcmData.length                          -- data size
  ++ pcmData

/-! ## Service layer -/

/-- The failure modes a service call can finish with.  `invocationExhausted`
is `withRetry` re-throwing `lastError`; `malformedJson` is the rethrown
`JSON.parse` `SyntaxError`; `noAudioData` is the "No audio data returned"
error of `generateSpeech`; `itemsNotArray` is the `TypeError` of calling
`.map` on a truthy non-array `data.items`. -/
inductive ServiceError where
  | invocationExhausted (last : Option Nat) : ServiceError
  | malformedJson : ServiceError
  | noAudioData : ServiceError
  | itemsNotArray : ServiceError

/-- `generateSpeech`: retry the TTS call; on a response with no inline audio
throw; otherwise wrap the decoded PCM bytes into a WAV container at the
fixed 24000 Hz rate.  The resulting byte list is the blob's contents. -/
def generateSpeech (oracle : Nat → Except Nat GenerateContentResponse) :
    Except ServiceError (List Nat) :=
  match (withRetry oracle 3).1 with
  | .error e => .error (.invocationExhausted e)
  | .ok resp =>
    match resp.inlineAudioData with
    | none => .error .noAudioData
    | some pcmData => .ok (pcmToWav pcmData 24000)

/-- `generateAnalysis`: retry the structured call, then
`JSON.parse(response.text || '{}')` and return the parsed value *as is*
(the TS `as AnalysisResult` cast performs no validation).  The `Nat`
component is the number of AI invocations that occurred. -/
def generateAnalysis (oracle : Nat → Except Nat GenerateContentResponse) :
    Except ServiceError Json × Nat :=
  match withRetry oracle 3 with
  | (.error e, n) => (.error (.invocationExhausted e), n)
  | (.ok resp, n) =>
    match jsParse resp.text with
    | .error _ => (.error .malformedJson, n)
    | .ok data => (.ok data, n)

/-- `q-${Date.now()}-${index}`. -/
def mkQuestionId (now idx : Nat) : String :=
  "q-" ++ toString now ++ "-" ++ toString idx

/-- Own enumerable fields contributed by a JS object spread `{...item}` of a
JSON value (a non-object contributes none of the fields the program ever
reads). -/
def jsSpreadFields : Json → List (String × Json)
  | .obj fields => fields
  | _ => []

/-- Fields of the object literal `{...item, k₁: v₁, …}`: the literal's own
keys override any spread key of the same name. -/
def objUpsert (fields newFields : List (String × Json)) :
    List (String × Json) :=
  fields.filter (fun p => !(newFields.any (fun q => q.1 == p.1))) ++ newFields

/-- The per-item post-processing of `generateQuestions`. -/
def decorateQuestion (now idx : Nat) (item : Json) : Json :=
  Json.obj (objUpsert (jsSpreadFields item)
    [("id", Json.str (mkQuestionId now idx)),
     ("isFavorite", Json.bool false),
     ("userNotes", Json.str ""),
     ("practiceCount", Json.num 0)])

/-- `generateQuestions`: retry, parse, then map `data.items || []` through
the decorator.  A truthy non-array `items` makes `.map` throw a `TypeError`
(also rethrown by the catch block). -/
def generateQuestions (oracle : Nat → Except Nat GenerateContentResponse)
    (now : Nat) : Except ServiceError (List Json) × Nat :=
  match withRetry oracle 3 with
  | (.error e, n) => (.error (.invocationExhausted e), n)
  | (.ok resp, n) =>
    match jsParse resp.text with
    | .error _ => (.error .malformedJson, n)
    | .ok data =>
      match data.getField "items" with
      | none => (.ok [], n)
      | some items =>
        if items.truthy then
          match items with
          | .arr xs => (.ok (xs.mapIdx (fun idx item => decorateQuestion now idx item)), n)
          | _ => (.error .itemsNotArray, n)
        else (.ok [], n)

/-! ## Answer evaluation -/

deriving instance DecidableEq for Except

/-- An audio answer blob.  `encoded` is the outcome of the `blobToBase64`
promise: the base64 payload, or the `FileReader` error it rejects with. -/
structure AudioBlob where
  encoded : Except Nat String
  mimeType : String
deriving DecidableEq

/-- The `input: Blob | string` union of `evaluateMockResponse`. -/
inductive AnswerInput where
  | audio (b : AudioBlob) : AnswerInput
  | text (s : String) : AnswerInput
deriving DecidableEq

/-- The fallback object returned by the catch block of
`evaluateMockResponse`. -/
def evalFallback (isAudio : Bool) (textInput : String) : Json :=
  Json.obj
    [("transcription",
      Json.str (if isAudio then "Error processing audio." else textInput)),
     ("feedback", Json.str "Could not generate feedback due to an error.")]

/-- The `try` block of `evaluateMockResponse`: retry the evaluation call and
parse its JSON; *any* failure inside (exhausted retries or a parse error) is
caught and replaced by the fallback object. -/
def evalRequest (oracle : Nat → Except Nat GenerateContentResponse)
    (isAudio : Bool) (textInput : String) : Json :=
  match (withRetry oracle 3).1 with
  | .error _ => evalFallback isAudio textInput
  | .ok resp =>
    match jsParse resp.text with
    | .error _ => evalFallback isAudio textInput
    | .ok j => j

/-- `evaluateMockResponse(input, question, isEnglish)`.  For an audio input
the source awaits `blobToBase64` *before* entering its `try` block, so a
rejection there escapes the function; everything after is absorbed into the
fallback.  The `question` and `isEnglish` arguments only shape the prompt
text, which the environment oracle already accounts for. -/
def evaluateMockResponse (input : AnswerInput) (question : String)
    (isEnglish : Bool) (oracle : Nat → Except Nat GenerateContentResponse) :
    Except Nat Json :=
  match input with
  | .audio b =>
    match b.encoded with
    | .error e => .error e
    | .ok _ => .ok (evalRequest oracle true "")
  | .text s => .ok (evalRequest oracle false s)

/-! ## Question bank data model -/

/-- A question bank item (`QuestionItem`), as produced by
`generateQuestions`.  `questionEN` is the optional secondary-language text
(an absent property and an empty string are both falsy where the source
tests it). -/
structure QuestionItem where
  id : String
  category : String
  question : String
  questionEN : Option String
  intent : String
  answerStructure : String
  keyPoints : String
  recommendedAnswer : String
  isFavorite : Bool
  userNotes : String
  practiceCount : Option Nat
deriving DecidableEq

/-- One entry of the session's question selection: an item plus the round's
language flag. -/
structure RoundSelection where
  item : QuestionItem
  isEnglish : Bool
deriving DecidableEq

/-- A `MockRoundResult`.  Optional TS properties are `Option`s; `skipped`
is absent (hence falsy) on evaluated rounds, modelled as `false`.
`transcription`/`feedback` hold the string read off the evaluation object
(`none` when the property is absent or not a string). -/
structure MockRoundResult where
  questionId : String
  questionText : String
  isEnglishRound : Bool
  audioBlob : Option AudioBlob
  textAnswer : Option String
  transcription : Option String
  feedback : Option String
  skipped : Bool
deriving DecidableEq

/-! ## Session controller -/

/-- The `viewState` flag of `MockInterviewView`.  `RECORDING` is collapsed
into `QUESTION` here: starting and stopping a recording are folded into one
submit event, and a skip clicked during RECORDING abandons the recording
with exactly the effect of a skip from QUESTION (the recorder is never
stopped, so its `onstop` never fires). -/
inductive ViewState where
  | READY | QUESTION | RECORDING | PROCESSING | DONE
deriving DecidableEq

/-- The suspended continuation of one `processAnswer` call: everything the
closure captured before its `await`.  `capturedQ` and the question text are
read from `selectedQuestions[currentIndex]` at entry; `capturedIndex` is
the render's `currentIndex` that `processAnswer` and its `moveToNext` close
over (the `setCurrentIndex(prev => prev + 1)` and
`setResults(prev => [...prev, r])` updates inside are functional, so they
act on the *latest* state, but the `currentIndex < 2` branch test uses this
captured value). -/
structure PendingEval where
  capturedQ : RoundSelection
  capturedIndex : Nat
  input : AnswerInput
  oracle : Nat → Except Nat GenerateContentResponse

/-- The controller's state.  Each recorded result is paired with the index
of the round it was created for (the `currentIndex` its creating handler
captured); that first component is a ghost annotation used only to state
ordering properties — the second components are exactly the records the
source stores in `results`.  `pending` holds the evaluations currently in
flight, oldest first. -/
structure SessionState where
  selectedQuestions : List RoundSelection
  currentIndex : Nat
  results : List (Nat × MockRoundResult)
  viewState : ViewState
  pending : List PendingEval

/-- JS truthiness of the optional `questionEN` string property. -/
def truthyOpt : Option String → Bool
  | none => false
  | some s => s != ""

/-- The expression `currentQ.isEnglish && currentQ.item.questionEN
? currentQ.item.questionEN : currentQ.item.question`, shared verbatim by
`displayQuestion`, `handleSkip` and `processAnswer`. -/
def qText (currentQ : RoundSelection) : String :=
  if currentQ.isEnglish && truthyOpt currentQ.item.questionEN then
    currentQ.item.questionEN.getD ""
  else currentQ.item.question

/-- The question text shown in the QUESTION/RECORDING view. -/
def displayQuestion (st : SessionState) : Option String :=
  (st.selectedQuestions[st.currentIndex]?).map qText

/-- `moveToNext`: advance to the next round, or to DONE after the last
round.  (It also clears the text box, which holds no session data.) -/
def moveToNext (st : SessionState) : SessionState :=
  if st.currentIndex < 2 then
    { st with currentIndex := st.currentIndex + 1, viewState := .QUESTION }
  else { st with viewState := .DONE }

/-- `handleSkip`: synthesize a skipped result for the current round and
advance.  `none` models the TypeError of indexing past the selection. -/
def handleSkip (st : SessionState) : Option SessionState :=
  match st.selectedQuestions[st.currentIndex]? with
  | none => none
  | some currentQ =>
    let resultItem : MockRoundResult :=
      { questionId := currentQ.item.id
        questionText := qText currentQ
        isEnglishRound := currentQ.isEnglish
        audioBlob := none
        textAnswer := none
        transcription := some "Skipped"
        feedback := some "Question skipped."
        skipped := true }
    some (moveToNext
      { st with results := st.results ++ [(st.currentIndex, resultItem)] })

/-- A call made to the evaluation gateway (`evaluateMockResponse`),
recorded with what the source passes it. -/
structure EvalCall where
  input : AnswerInput
  question : String
  isEnglish : Bool

/-- The state right after the synchronous prefix of `processAnswer` ran
for the round `currentQ`: the view shows the spinner and the continuation
of `processAnswer` — with the question and index it captured — is in
flight. -/
def submittedState (input : AnswerInput)
    (oracle : Nat → Except Nat GenerateContentResponse)
    (st : SessionState) (currentQ : RoundSelection) : SessionState :=
  { st with
    viewState := .PROCESSING
    pending := st.pending ++ [⟨currentQ, st.currentIndex, input, oracle⟩] }

/-- Submitting an answer (`submitTextAnswer` / `stopRecording` followed by
the synchronous prefix of `processAnswer`): the view switches to
PROCESSING, `processAnswer` captures the current round's question and index
and issues the gateway call, and the rest of `processAnswer` — the
continuation after `await evaluateMockResponse` — is now in flight.
`none` models the TypeError of indexing past the selection. -/
def submitAnswer (input : AnswerInput)
    (oracle : Nat → Except Nat GenerateContentResponse) (st : SessionState) :
    Option (SessionState × List EvalCall) :=
  match st.selectedQuestions[st.currentIndex]? with
  | none => none
  | some currentQ =>
    let call : EvalCall :=
      { input := input
        question := qText currentQ
        isEnglish := currentQ.isEnglish }
    some (submittedState input oracle st currentQ, [call])

/-- The continuation of `processAnswer` after its `await`: on a resolved
evaluation, append the captured round's result (to the *latest* results,
via the functional `setResults`); when the evaluation rejected, the catch
block only alerts.  Either way the captured render's `moveToNext` then
runs: its branch tests the *captured* `currentIndex`, while
`setCurrentIndex(prev => prev + 1)` increments the latest one. -/
def resolveAnswer (p : PendingEval) (st : SessionState) : SessionState :=
  let st1 :=
    match evaluateMockResponse p.input (qText p.capturedQ)
        p.capturedQ.isEnglish p.oracle with
    | .ok aiResult =>
      let resultItem : MockRoundResult :=
        { questionId := p.capturedQ.item.id
          questionText := qText p.capturedQ
          isEnglishRound := p.capturedQ.isEnglish
          audioBlob := match p.input with
            | .audio b => some b | .text _ => none
          textAnswer := match p.input with
            | .text s => some s | .audio _ => none
          transcription := aiResult.getStr "transcription"
          feedback := aiResult.getStr "feedback"
          skipped := false }
      { st with results := st.results ++ [(p.capturedIndex, resultItem)] }
    | .error _ => st
  if p.capturedIndex < 2 then
    { st1 with currentIndex := st1.currentIndex + 1, viewState := .QUESTION }
  else { st1 with viewState := .DONE }

/-- Resolution of the `k`-th in-flight evaluation (promises may settle in
any environment-chosen order); with no such pending evaluation nothing
happens. -/
def resolvePending (k : Nat) (st : SessionState) : SessionState :=
  match st.pending[k]? with
  | none => st
  | some p => resolveAnswer p { st with pending := st.pending.eraseIdx k }

/-- A session event: pressing skip, submitting an answer (recording
stop or text submit — the source guards text submission on a non-empty
trimmed string, which is the caller's responsibility here; the oracle is
the environment for that evaluation), or the settling of the `k`-th
in-flight evaluation. -/
inductive Event where
  | skip : Event
  | submit (input : AnswerInput)
      (oracle : Nat → Except Nat GenerateContentResponse) : Event
  | resolve (k : Nat) : Event

/-- One controller step.  The header's skip button is rendered during
QUESTION, RECORDING and PROCESSING (part_001:253-258) — RECORDING is
collapsed into QUESTION here — so skip acts in both QUESTION and
PROCESSING; the answer controls are only rendered in the QUESTION view
(the PROCESSING view replaces them with a spinner); an in-flight
evaluation settles whatever the view shows.  The `EvalCall` list records
the gateway calls the step issues (made at submit time, when
`processAnswer` starts). -/
def stepUI (e : Event) (st : SessionState) :
    Option (SessionState × List EvalCall) :=
  match e with
  | .skip =>
    if st.viewState = ViewState.QUESTION ∨ st.viewState = ViewState.PROCESSING
    then (handleSkip st).map (fun st' => (st', []))
    else some (st, [])
  | .submit input oracle =>
    if st.viewState = ViewState.QUESTION then submitAnswer input oracle st
    else some (st, [])
  | .resolve k => some (resolvePending k st, [])

/-- Run a list of events from a state. -/
def runTrace (st : SessionState) : List Event → Option SessionState
  | [] => some st
  | e :: es =>
    match stepUI e st with
    | none => none
    | some (st', _) => runTrace st' es

/-- The state right after `startSession` put the view on the first
question. -/
def initState (sq : List RoundSelection) : SessionState :=
  { selectedQuestions := sq, currentIndex := 0, results := [],
    viewState := .QUESTION, pending := [] }

/-- Number of rounds the session has advanced past. -/
def advanced (st : SessionState) : Nat :=
  if st.viewState = ViewState.DONE then 3 else st.currentIndex

/-- An answer payload whose evaluation call cannot reject: any text, or an
audio blob whose `blobToBase64` succeeds. -/
def inputEncodes : AnswerInput → Bool
  | .text _ => true
  | .audio b => b.encoded.isOk

/-- An event that cannot put a rejecting evaluation in flight. -/
def eventEncodes : Event → Bool
  | .skip => true
  | .submit input _ => inputEncodes input
  | .resolve _ => true

/-- The discipline of a candidate who never presses skip (or submits) while
an evaluation is still in flight: the intended sequential use of the UI. -/
def eventSequential : Event → SessionState → Prop
  | .skip, st => st.pending = []
  | .submit _ _, st => st.pending = []
  | .resolve _, _ => True

/-- A trace that respects `eventSequential` at every step it takes. -/
def WellQueued : SessionState → List Event → Prop
  | _, [] => True
  | st, e :: es =>
    eventSequential e st
    ∧ (∀ st' calls, stepUI e st = some (st', calls) → WellQueued st' es)

/-- Inductive invariant of a sequentially-used session: a 3-question
selection; the view is showing a question (index ≤ 2, nothing in flight),
processing (index ≤ 2, exactly the current round's evaluation in flight)
or done (index = 2, nothing in flight); at most one recorded result per
advanced round, the ghost round indices strictly increasing and all below
the number of rounds advanced past. -/
def SessionInv (st : SessionState) : Prop :=
  st.selectedQuestions.length = 3
  ∧ (st.viewState = .QUESTION ∨ st.viewState = .PROCESSING
      ∨ st.viewState = .DONE)
  ∧ (st.viewState = .QUESTION → st.currentIndex ≤ 2 ∧ st.pending = [])
  ∧ (st.viewState = .PROCESSING → st.currentIndex ≤ 2
      ∧ ∃ p, st.pending = [p] ∧ p.capturedIndex = st.currentIndex)
  ∧ (st.viewState = .DONE → st.currentIndex = 2 ∧ st.pending = [])
  ∧ st.results.length ≤ advanced st
  ∧ (st.results.map Prod.fst).Pairwise (· < ·)
  ∧ (∀ p ∈ st.results, p.1 < advanced st)

/-! ## Session start (question selection) -/

/-- Failure of the question-selection `useEffect`: the alert + `onCancel`
taken when the bank holds fewer than 3 questions. -/
inductive SessionError where
  | insufficientQuestionPool : SessionError
deriving DecidableEq

/-- The question-selection effect: refuse a pool of fewer than 3 questions;
otherwise shuffle (the caller supplies `shuffled`, some permutation of the
pool — the random-comparator `sort` guarantees nothing more), pick the
first 3, and force the third round to be the English one.  The second
`.error` branch is unreachable whenever `shuffled` really is a permutation
of a pool of length ≥ 3. -/
def selectQuestions (questions shuffled : List QuestionItem) :
    Except SessionError (List RoundSelection) :=
  if questions.length < 3 then .error .insufficientQuestionPool
  else
    match shuffled with
    | q0 :: q1 :: q2 :: _ =>
      .ok [{ item := q0, isEnglish := false },
           { item := q1, isEnglish := false },
           { item := q2, isEnglish := true }]
    | _ => .error .insufficientQuestionPool

/-- Selection followed by entering the first QUESTION state. -/
def mockInterviewInit (questions shuffled : List QuestionItem) :
    Except SessionError SessionState :=
  (selectQuestions questions shuffled).map initState

/-! ## App-level completion handler -/

/-- The `AppView` enumeration of `types.ts`. -/
inductive AppView where
  | INPUT | ANALYSIS | QUESTIONS | FAVORITES | MOCK_SESSION | MOCK_HISTORY
deriving DecidableEq

/-- One stored mock session. -/
structure MockSession where
  id : String
  timestamp : Nat
  rounds : List MockRoundResult
deriving DecidableEq

/-- The slice of `AppState` that `handleMockComplete` touches. -/
structure AppStateModel where
  view : AppView
  questions : List QuestionItem
  mockHistory : List MockSession
deriving DecidableEq

/-- `handleMockComplete(results)`: build the practiced-id set, append one
new `MockSession` holding the full result sequence, switch to the history
view, and bump `practiceCount` once on every question whose id is in the
set, leaving every other question (and every other field) alone. -/
def handleMockComplete (now : Nat) (results : List MockRoundResult)
    (st : AppStateModel) : AppStateModel :=
  let questionIdsPracticed := results.map (fun r => r.questionId)
  let newSession : MockSession :=
    { id := "session-" ++ toString now, timestamp := now, rounds := results }
  { view := .MOCK_HISTORY
    mockHistory := st.mockHistory ++ [newSession]
    questions := st.questions.map (fun q =>
      if questionIdsPracticed.contains q.id then
        { q with practiceCount := some (q.practiceCount.getD 0 + 1) }
      else q) }

/-! ## Schema conformance (claim-side, from `introSchema`) -/

/-- Does `j` have a string-valued property `k`? -/
def hasStrField (j : Json) (k : String) : Bool :=
  match j.getField k with
  | some (.str _) => true
  | _ => false

/-- One entry of `introSchema.properties.strengths.items`. -/
def strengthEntryOk (j : Json) : Bool :=
  hasStrField j "strength" && hasStrField j "description"

/-- One entry of `introSchema.properties.intros.items`. -/
def introEntryOk (j : Json) : Bool :=
  (match j.getField "style" with
   | some (.str s) => s == "Affinity" || s == "Academic" || s == "Practical"
   | _ => false)
  && hasStrField j "title" && hasStrField j "contentCN"
  && hasStrField j "contentEN"

/-- Conformance of a parsed response to `introSchema`: all four required
top-level properties present with the declared types, enums respected. -/
def conformsIntroSchema (j : Json) : Bool :=
  (match j.getField "strengths" with
   | some (.arr xs) => xs.all strengthEntryOk
   | _ => false)
  && (match j.getField "competencyLevel" with
      | some (.str s) => s == "A" || s == "B" || s == "C" || s == "D"
      | _ => false)
  && hasStrField j "competencyEvaluation"
  && (match j.getField "intros" with
      | some (.arr xs) => xs.all introEntryOk
      | _ => false)

/-! ## Concrete fixtures for witnesses and counterexamples -/

/-- A concrete question-bank item. -/
def mkQuestion (ident qcn : String) (qen : Option String) : QuestionItem :=
  { id := ident, category := "Motivation", question := qcn, questionEN := qen,
    intent := "", answerStructure := "", keyPoints := "",
    recommendedAnswer := "", isFavorite := false, userNotes := "",
    practiceCount := some 0 }

def qItemA : QuestionItem := mkQuestion "a" "甲" (some "alpha")

def qItemB : QuestionItem := mkQuestion "b" "乙" (some "bravo")

def qItemC : QuestionItem := mkQuestion "c" "丙" none

/-- A pool with three unique items one of which occurs twice. -/
def dupPool : List QuestionItem := [qItemA, qItemA, qItemB, qItemC]

/-- A concrete 3-round selection (two primary rounds, one secondary). -/
def fixedSelection : List RoundSelection :=
  [{ item := qItemA, isEnglish := false },
   { item := qItemB, isEnglish := false },
   { item := qItemC, isEnglish := true }]

/-- An audio blob whose `blobToBase64` promise rejects (with token 7). -/
def badBlob : AudioBlob := { encoded := .error 7, mimeType := "audio/webm" }

/-- An audio blob whose encoding succeeds. -/
def goodBlob : AudioBlob := { encoded := .ok "UklGRg==", mimeType := "audio/webm" }

/-- An environment in which every AI invocation rejects. -/
def failOracle : Nat → Except Nat GenerateContentResponse :=
  fun i => .error i

/-- An environment whose first response resolves but carries a falsy
`text`. -/
def emptyTextOracle : Nat → Except Nat GenerateContentResponse :=
  fun _ => .ok { text := .empty, inlineAudioData := none }

/-- An environment whose first response resolves with a text that fails
`JSON.parse`. -/
def invalidTextOracle : Nat → Except Nat GenerateContentResponse :=
  fun _ => .ok { text := .invalid "not json", inlineAudioData := none }

/-- An environment whose first response resolves with inline speech
audio. -/
def speechOracle : Nat → Except Nat GenerateContentResponse :=
  fun _ => .ok { text := .empty, inlineAudioData := some [7, 8] }

/-- The always-failing operation used to witness the retry contract. -/
def fnAllFail : Nat → Except Nat Nat := fun i => .error i

/-- The state reached from `fixedSelection` by skipping the first round. -/
def oneSkipState : SessionState :=
  { selectedQuestions := fixedSelection
    currentIndex := 1
    results := [(0,
      { questionId := "a", questionText := "甲", isEnglishRound := false,
        audioBlob := none, textAnswer := none,
        transcription := some "Skipped", feedback := some "Question skipped.",
        skipped := true })]
    viewState := .QUESTION
    pending := [] }

/-- An environment whose first response resolves with a well-formed
evaluation object. -/
def okEvalOracle : Nat → Except Nat GenerateContentResponse :=
  fun _ => .ok
    { text := .valid (Json.obj [("transcription", Json.str "hi"),
        ("feedback", Json.str "good")])
      inlineAudioData := none }

/-- A concrete app state with one question bank entry. -/
def appStateFixture : AppStateModel :=
  { view := .QUESTIONS, questions := [qItemA, qItemB], mockHistory := [] }

/-- A concrete completed-round result referencing `qItemA`. -/
def roundResultFixture : MockRoundResult :=
  { questionId := "a", questionText := "甲", isEnglishRound := false,
    audioBlob := none, textAnswer := some "hi",
    transcription := some "hi", feedback := some "ok", skipped := false }

/-! ## Helper lemmas: the retry loop -/

theorem except_isOk_false {ε α : Type} {x : Except ε α} (h : x.isOk = false) :
    ∃ e, x = .error e := by
  cases x with
  | ok a => simp [Except.isOk, Except.toBool] at h
  | error e => exact ⟨e, rfl⟩

theorem withRetryGo_zero {ε α : Type} (fn : Nat → Except ε α) (i : Nat)
    (last : Option ε) : withRetryGo fn i 0 last = (.error last, 0) := rfl

theorem withRetryGo_succ_ok {ε α : Type} (fn : Nat → Except ε α) {i : Nat}
    {a : α} (h : fn i = .ok a) (r : Nat) (last : Option ε) :
    withRetryGo fn i (r + 1) last = (.ok a, 1) := by
  simp [withRetryGo, h]

theorem withRetryGo_succ_err {ε α : Type} (fn : Nat → Except ε α) {i : Nat}
    {e : ε} (h : fn i = .error e) (r : Nat) (last : Option ε) :
    withRetryGo fn i (r + 1) last =
      ((withRetryGo fn (i + 1) r (some e)).1,
       (withRetryGo fn (i + 1) r (some e)).2 + 1) := by
  simp [withRetryGo, h]

theorem withRetryGo_count_le {ε α : Type} (fn : Nat → Except ε α) :
    ∀ r i last, (withRetryGo fn i r last).2 ≤ r := by
  intro r
  induction r with
  | zero => intro i last; simp [withRetryGo_zero]
  | succ r ih =>
    intro i last
    cases h : fn i with
    | ok a => rw [withRetryGo_succ_ok fn h]; simp
    | error e => rw [withRetryGo_succ_err fn h]; simpa using ih (i + 1) (some e)

theorem withRetryGo_first_success {ε α : Type} (fn : Nat → Except ε α) :
    ∀ k r i last a, k < r → (∀ j, j < k → (fn (i + j)).isOk = false) →
      fn (i + k) = .ok a → withRetryGo fn i r last = (.ok a, k + 1) := by
  intro k
  induction k with
  | zero =>
    intro r i last a hk hfail hok
    match r, hk with
    | r + 1, _ => exact withRetryGo_succ_ok fn (by simpa using hok) r last
  | succ k ih =>
    intro r i last a hk hfail hok
    match r, hk with
    | r + 1, hk =>
      obtain ⟨e, he⟩ := except_isOk_false (x := fn i)
        (by simpa using hfail 0 (Nat.succ_pos k))
      rw [withRetryGo_succ_err fn he]
      have hrec := ih r (i + 1) (some e) a (Nat.lt_of_succ_lt_succ hk)
        (fun j hj => by
          have := hfail (j + 1) (Nat.succ_lt_succ hj)
          simpa [Nat.add_assoc, Nat.add_comm 1 j] using this)
        (by simpa [Nat.add_assoc, Nat.add_comm 1 k] using hok)
      simp [hrec]

theorem withRetryGo_all_fail {ε α : Type} (fn : Nat → Except ε α) :
    ∀ r i last e, 1 ≤ r → (∀ j, j < r → (fn (i + j)).isOk = false) →
      fn (i + (r - 1)) = .error e →
      withRetryGo fn i r last = (.error (some e), r) := by
  intro r
  induction r with
  | zero => intro i last e h; exact absurd h (by simp)
  | succ r ih =>
    intro i last e _ hfail hlast
    cases r with
    | zero =>
      rw [withRetryGo_succ_err fn (show fn i = .error e by simpa using hlast)]
      simp [withRetryGo_zero]
    | succ r =>
      obtain ⟨e0, he0⟩ := except_isOk_false (x := fn i)
        (by simpa using hfail 0 (Nat.succ_pos _))
      rw [withRetryGo_succ_err fn he0]
      have hrec := ih (i + 1) (some e0) e (Nat.succ_pos r)
        (fun j hj => by
          have := hfail (j + 1) (Nat.succ_lt_succ hj)
          simpa [Nat.add_assoc, Nat.add_comm 1 j] using this)
        (by
          have heq : i + 1 + (r + 1 - 1) = i + (r + 1 + 1 - 1) := by omega
          rw [heq]; exact hlast)
      simp [hrec]

/-- C5.  The invoker (`withRetry`) executes the wrapped operation at most
`retries` times; it returns the result of the first successful attempt,
having executed exactly the attempts before and including it; and on an
operation failing every attempt it executes exactly `retries` attempts and
re-raises the last observed failure (the exhaustion outcome carries that
final error). -/
theorem withRetry_spec (ε α : Type) (fn : Nat → Except ε α) (retries : Nat) :
    (withRetry fn retries).2 ≤ retries
    ∧ (∀ k a, k < retries → (∀ j, j < k → (fn j).isOk = false) →
        fn k = .ok a → withRetry fn retries = (.ok a, k + 1))
    ∧ (∀ e, 1 ≤ retries → (∀ j, j < retries → (fn j).isOk = false) →
        fn (retries - 1) = .error e →
        withRetry fn retries = (.error (some e), retries)) := by
  refine ⟨withRetryGo_count_le fn retries 0 none, ?_, ?_⟩
  · intro k a hk hfail hok
    exact withRetryGo_first_success fn k retries 0 none a hk
      (fun j hj => by simpa using hfail j hj) (by simpa using hok)
  · intro e hr hfail hlast
    exact withRetryGo_all_fail fn retries 0 none e hr
      (fun j hj => by simpa using hfail j hj) (by simpa using hlast)

/-- Witness for C5 at a concrete always-failing operation with a 3-attempt
policy: exactly 3 attempts occur and the third attempt's error is
re-raised. -/
theorem withRetry_spec_witness :
    (1 ≤ 3 ∧ (∀ j, j < 3 → ((fnAllFail j).isOk = false))
      ∧ fnAllFail 2 = .error 2)
    ∧ withRetry fnAllFail 3 = (.error (some 2), 3) :=
  ⟨⟨by decide, fun j _ => rfl, rfl⟩,
    (withRetry_spec Nat Nat fnAllFail 3).2.2 2 (by decide) (fun j _ => rfl) rfl⟩

/-! ## Helper lemmas: little-endian decoding -/

theorem leVal_u32le (n : Nat) (h : n < 4294967296) : leVal (u32le n) = n := by
  simp only [u32le, leVal]
  omega

theorem leVal_u16le (n : Nat) (h : n < 65536) : leVal (u16le n) = n := by
  simp only [u16le, leVal]
  omega

set_option maxHeartbeats 1600000 in
/-- C8.  For every raw PCM byte sequence handed back by the speech service,
the gateway returns it wrapped in a standard WAV container: a 44-byte
canonical header (RIFF/WAVE/fmt/data chunks) declaring PCM format, mono
(1 channel), 16-bit samples and the fixed 24000 Hz sample rate, with chunk
and data sizes consistent with the payload length, and the PCM bytes
appended unchanged after the header. -/
theorem pcm_wav_container_spec (pcm : List Nat)
    (h : 36 + pcm.length < 4294967296) :
    (pcmToWav pcm 24000).length = 44 + pcm.length
    ∧ (pcmToWav pcm 24000).drop 44 = pcm
    ∧ (pcmToWav pcm 24000).take 4 = [82, 73, 70, 70]
    ∧ readLE (pcmToWav pcm 24000) 4 4 = 36 + pcm.length
    ∧ ((pcmToWav pcm 24000).drop 8).take 4 = [87, 65, 86, 69]
    ∧ ((pcmToWav pcm 24000).drop 12).take 4 = [102, 109, 116, 32]
    ∧ readLE (pcmToWav pcm 24000) 16 4 = 16
    ∧ readLE (pcmToWav pcm 24000) 20 2 = 1
    ∧ readLE (pcmToWav pcm 24000) 22 2 = 1
    ∧ readLE (pcmToWav pcm 24000) 24 4 = 24000
    ∧ readLE (pcmToWav pcm 24000) 28 4 = 48000
    ∧ readLE (pcmToWav pcm 24000) 32 2 = 2
    ∧ readLE (pcmToWav pcm 24000) 34 2 = 16
    ∧ ((pcmToWav pcm 24000).drop 36).take 4 = [100, 97, 116, 97]
    ∧ readLE (pcmToWav pcm 24000) 40 4 = pcm.length
    ∧ (∀ oracle resp n, withRetry oracle 3 = (.ok resp, n) →
        resp.inlineAudioData = some pcm →
        generateSpeech oracle = .ok (pcmToWav pcm 24000)) := by
  have h4 : readLE (pcmToWav pcm 24000) 4 4 = leVal (u32le (36 + pcm.length)) := rfl
  have h24 : readLE (pcmToWav pcm 24000) 24 4 = leVal (u32le 24000) := rfl
  have h28 : readLE (pcmToWav pcm 24000) 28 4 = leVal (u32le 48000) := rfl
  have h40 : readLE (pcmToWav pcm 24000) 40 4 = leVal (u32le pcm.length) := rfl
  have hlen : (pcmToWav pcm 24000).length = 44 + pcm.length := by
    simp only [pcmToWav, u32le, u16le, List.length_append, List.length_cons,
      List.length_nil]
  have hspeech : ∀ oracle resp n,
      withRetry oracle 3 = (.ok resp, n) → resp.inlineAudioData = some pcm →
      generateSpeech oracle = .ok (pcmToWav pcm 24000) := by
    intro oracle resp n hw hdata
    have h1 : (withRetry oracle 3).1 = .ok resp := by rw [hw]
    simp [generateSpeech, h1, hdata]
  exact ⟨hlen, rfl, rfl, by rw [h4, leVal_u32le _ h], rfl, rfl, rfl, rfl, rfl,
    by rw [h24, leVal_u32le 24000 (by norm_num)],
    by rw [h28, leVal_u32le 48000 (by norm_num)], rfl, rfl, rfl,
    by rw [h40, leVal_u32le _ (by omega)], hspeech⟩

/-- Witness for C8 on the concrete two-byte PCM payload `[7, 8]`, including
the gateway handing back exactly the wrapped container for a concrete
successful speech response. -/
theorem pcm_wav_container_spec_witness :
    (36 + ([7, 8] : List Nat).length < 4294967296)
    ∧ readLE (pcmToWav [7, 8] 24000) 22 2 = 1
    ∧ generateSpeech speechOracle = .ok (pcmToWav [7, 8] 24000) := by
  have h := pcm_wav_container_spec [7, 8] (by decide)
  exact ⟨by decide, h.2.2.2.2.2.2.2.2.1,
    h.2.2.2.2.2.2.2.2.2.2.2.2.2.2.2 speechOracle
      { text := .empty, inlineAudioData := some [7, 8] } 1 rfl rfl⟩

/-! ## Helper lemmas: service layer -/

theorem except_isOk_true {ε α : Type} {x : Except ε α} (h : x.isOk = true) :
    ∃ a, x = .ok a := by
  cases x with
  | ok a => exact ⟨a, rfl⟩
  | error e => simp [Except.isOk, Except.toBool] at h

theorem withRetry_all_fail {ε α : Type} (fn : Nat → Except ε α)
    (hfail : ∀ i, i < 3 → (fn i).isOk = false) :
    ∃ e, withRetry fn 3 = (.error (some e), 3) := by
  obtain ⟨e, he⟩ := except_isOk_false (hfail 2 (by decide))
  exact ⟨e, withRetryGo_all_fail fn 3 0 none e (by decide)
    (fun j hj => by simpa using hfail j hj) (by simpa using he)⟩

theorem evalRequest_all_fail (oracle : Nat → Except Nat GenerateContentResponse)
    (isAudio : Bool) (textInput : String)
    (hfail : ∀ i, i < 3 → (oracle i).isOk = false) :
    evalRequest oracle isAudio textInput = evalFallback isAudio textInput := by
  obtain ⟨e, hw⟩ := withRetry_all_fail oracle hfail
  simp [evalRequest, hw]

theorem moveToNext_results (st : SessionState) :
    (moveToNext st).results = st.results := by
  unfold moveToNext
  split <;> rfl

theorem moveToNext_selected (st : SessionState) :
    (moveToNext st).selectedQuestions = st.selectedQuestions := by
  unfold moveToNext
  split <;> rfl

/-- C4, amended.  On a structured response whose text fails JSON parsing,
`generateAnalysis` and `generateQuestions` fail immediately — the parse
error is rethrown after exactly the `n` transport attempts the retry loop
already made, with no further attempt — but a response that parses as JSON
is returned as-is, whether or not it conforms to the schema (no client-side
schema check exists): a missing/falsy text yields the empty object, and an
`items` array flows through decoration untouched by any validation. -/
theorem structured_parse_failure_spec
    (oracle : Nat → Except Nat GenerateContentResponse)
    (resp : GenerateContentResponse) (n now : Nat)
    (hw : withRetry oracle 3 = (.ok resp, n)) :
    (∀ s, resp.text = .invalid s →
      generateAnalysis oracle = (.error .malformedJson, n)
      ∧ generateQuestions oracle now = (.error .malformedJson, n))
    ∧ (∀ j, resp.text = .valid j → generateAnalysis oracle = (.ok j, n))
    ∧ (resp.text = .empty → generateAnalysis oracle = (.ok (Json.obj []), n))
    ∧ (∀ xs, resp.text = .valid (Json.obj [("items", Json.arr xs)]) →
        generateQuestions oracle now
          = (.ok (xs.mapIdx (fun idx item => decorateQuestion now idx item)), n)) := by
  refine ⟨?_, ?_, ?_, ?_⟩
  · intro s ht
    exact ⟨by simp [generateAnalysis, hw, ht, jsParse],
      by simp [generateQuestions, hw, ht, jsParse]⟩
  · intro j ht
    simp [generateAnalysis, hw, ht, jsParse]
  · intro ht
    simp [generateAnalysis, hw, ht, jsParse]
  · intro xs ht
    simp [generateQuestions, hw, ht, jsParse, Json.getField, Json.truthy]

/-- C4 counterexample.  A concrete response that fails the expected schema:
its text is falsy, so the parsed value is the empty object, which conforms
to nothing — yet `generateAnalysis` returns it as a success instead of
failing with a malformed-response error. -/
theorem structured_silent_partial_cex :
    (generateAnalysis emptyTextOracle).1 = .ok (Json.obj [])
    ∧ conformsIntroSchema (Json.obj []) = false := ⟨rfl, rfl⟩

/-- Witness for C4 (amended) at a concrete environment whose single
transport attempt succeeds with unparsable text. -/
theorem structured_parse_failure_spec_witness :
    withRetry invalidTextOracle 3
      = (.ok { text := .invalid "not json", inlineAudioData := none }, 1)
    ∧ generateAnalysis invalidTextOracle = (.error .malformedJson, 1) :=
  ⟨rfl,
    ((structured_parse_failure_spec invalidTextOracle
        { text := .invalid "not json", inlineAudioData := none } 1 0 rfl).1
      "not json" rfl).1⟩

/-! ## Helper lemmas: controller steps -/

theorem moveToNext_currentIndex (st : SessionState) :
    (moveToNext st).currentIndex =
      if st.currentIndex < 2 then st.currentIndex + 1 else st.currentIndex := by
  unfold moveToNext
  split <;> rfl

theorem moveToNext_viewState (st : SessionState) :
    (moveToNext st).viewState =
      if st.currentIndex < 2 then ViewState.QUESTION else ViewState.DONE := by
  unfold moveToNext
  split <;> rfl

theorem moveToNext_pending (st : SessionState) :
    (moveToNext st).pending = st.pending := by
  unfold moveToNext
  split <;> rfl

theorem stepUI_skip_unfold (st : SessionState)
    (hgate : st.viewState = ViewState.QUESTION
      ∨ st.viewState = ViewState.PROCESSING) :
    stepUI Event.skip st = (handleSkip st).map (fun st' => (st', [])) := by
  simp only [stepUI, if_pos hgate]

theorem stepUI_skip_id (st : SessionState)
    (hgate : ¬ (st.viewState = ViewState.QUESTION
      ∨ st.viewState = ViewState.PROCESSING)) :
    stepUI Event.skip st = some (st, []) := by
  simp only [stepUI, if_neg hgate]

theorem stepUI_submit_unfold (input : AnswerInput)
    (oracle : Nat → Except Nat GenerateContentResponse) (st : SessionState)
    (hview : st.viewState = .QUESTION) :
    stepUI (Event.submit input oracle) st = submitAnswer input oracle st := by
  simp only [stepUI, if_pos hview]

theorem stepUI_submit_id (input : AnswerInput)
    (oracle : Nat → Except Nat GenerateContentResponse) (st : SessionState)
    (hview : ¬ st.viewState = ViewState.QUESTION) :
    stepUI (Event.submit input oracle) st = some (st, []) := by
  simp only [stepUI, if_neg hview]

theorem stepUI_resolve_eq (k : Nat) (st : SessionState) :
    stepUI (Event.resolve k) st = some (resolvePending k st, []) := rfl

theorem submitAnswer_eq (input : AnswerInput)
    (oracle : Nat → Except Nat GenerateContentResponse) (st : SessionState)
    (currentQ : RoundSelection)
    (hget : st.selectedQuestions[st.currentIndex]? = some currentQ) :
    submitAnswer input oracle st = some (submittedState input oracle st currentQ,
      [{ input := input, question := qText currentQ, isEnglish := currentQ.isEnglish }]) := by
  simp [submitAnswer, hget]

theorem resolvePending_none (k : Nat) (st : SessionState)
    (h : st.pending[k]? = none) : resolvePending k st = st := by
  simp [resolvePending, h]

theorem resolvePending_some (k : Nat) (st : SessionState) (p : PendingEval)
    (h : st.pending[k]? = some p) :
    resolvePending k st
      = resolveAnswer p { st with pending := st.pending.eraseIdx k } := by
  simp [resolvePending, h]

theorem resolveAnswer_results_ok (p : PendingEval) (st : SessionState)
    (aiResult : Json)
    (heval : evaluateMockResponse p.input (qText p.capturedQ)
      p.capturedQ.isEnglish p.oracle = .ok aiResult) :
    (resolveAnswer p st).results = st.results ++ [(p.capturedIndex,
      { questionId := p.capturedQ.item.id, questionText := qText p.capturedQ,
        isEnglishRound := p.capturedQ.isEnglish,
        audioBlob := match p.input with | .audio b => some b | .text _ => none,
        textAnswer := match p.input with | .text s => some s | .audio _ => none,
        transcription := aiResult.getStr "transcription",
        feedback := aiResult.getStr "feedback", skipped := false })] := by
  obtain ⟨cq, ci, inp, orc⟩ := p
  simp only [resolveAnswer, heval]
  split <;> (cases inp <;> rfl)

theorem resolveAnswer_results_err (p : PendingEval) (st : SessionState)
    (err : Nat)
    (heval : evaluateMockResponse p.input (qText p.capturedQ)
      p.capturedQ.isEnglish p.oracle = .error err) :
    (resolveAnswer p st).results = st.results := by
  obtain ⟨cq, ci, inp, orc⟩ := p
  simp only [resolveAnswer, heval]
  split <;> rfl

theorem resolveAnswer_ok_eq (p : PendingEval) (st : SessionState)
    (aiResult : Json)
    (heval : evaluateMockResponse p.input (qText p.capturedQ)
      p.capturedQ.isEnglish p.oracle = .ok aiResult)
    (hidx : p.capturedIndex = st.currentIndex) :
    resolveAnswer p st = moveToNext { st with
      results := st.results ++ [(st.currentIndex,
        { questionId := p.capturedQ.item.id, questionText := qText p.capturedQ,
          isEnglishRound := p.capturedQ.isEnglish,
          audioBlob := match p.input with
            | .audio b => some b | .text _ => none,
          textAnswer := match p.input with
            | .text s => some s | .audio _ => none,
          transcription := aiResult.getStr "transcription",
          feedback := aiResult.getStr "feedback", skipped := false })] } := by
  obtain ⟨cq, ci, inp, orc⟩ := p
  simp only at hidx
  subst hidx
  simp only [resolveAnswer, heval, moveToNext]

theorem resolveAnswer_err_eq (p : PendingEval) (st : SessionState) (err : Nat)
    (heval : evaluateMockResponse p.input (qText p.capturedQ)
      p.capturedQ.isEnglish p.oracle = .error err)
    (hidx : p.capturedIndex = st.currentIndex) :
    resolveAnswer p st = moveToNext st := by
  obtain ⟨cq, ci, inp, orc⟩ := p
  simp only at hidx
  subst hidx
  simp only [resolveAnswer, heval, moveToNext]

theorem handleSkip_eq (st : SessionState) (currentQ : RoundSelection)
    (hget : st.selectedQuestions[st.currentIndex]? = some currentQ) :
    handleSkip st = some (moveToNext { st with
      results := st.results ++ [(st.currentIndex,
        { questionId := currentQ.item.id, questionText := qText currentQ,
          isEnglishRound := currentQ.isEnglish, audioBlob := none,
          textAnswer := none, transcription := some "Skipped",
          feedback := some "Question skipped.", skipped := true })] }) := by
  simp [handleSkip, hget]

/-- C1, amended.  For a text payload — and for an audio payload whose blob
encoding succeeds — `evaluateMockResponse` never rejects: when the AI call
fails on every retry attempt it resolves with the fallback object whose
transcription is the literal text input (or the explicit
"Error processing audio." marker for audio) and whose feedback is the fixed
failure-notice string, and the invoking round then appends exactly that
result and advances (completed, not errored).  An audio payload whose
`blobToBase64` promise rejects is the one case that still escapes: that
rejection happens before the guarded call and propagates outward. -/
theorem evaluate_answer_fallback_spec (s question : String) (isEnglish : Bool)
    (oracle : Nat → Except Nat GenerateContentResponse) (b : AudioBlob)
    (hfail : ∀ i, i < 3 → (oracle i).isOk = false)
    (henc : b.encoded.isOk = true) :
    evaluateMockResponse (.text s) question isEnglish oracle
      = .ok (Json.obj [("transcription", Json.str s),
          ("feedback", Json.str "Could not generate feedback due to an error.")])
    ∧ evaluateMockResponse (.audio b) question isEnglish oracle
      = .ok (Json.obj [("transcription", Json.str "Error processing audio."),
          ("feedback", Json.str "Could not generate feedback due to an error.")])
    ∧ (∀ st currentQ, st.viewState = .QUESTION → st.pending = [] →
        st.selectedQuestions[st.currentIndex]? = some currentQ →
        ∃ st1 calls1 st2 calls2,
          stepUI (.submit (.text s) oracle) st = some (st1, calls1)
          ∧ stepUI (.resolve 0) st1 = some (st2, calls2)
          ∧ st2.results = st.results ++ [(st.currentIndex,
              { questionId := currentQ.item.id, questionText := qText currentQ,
                isEnglishRound := currentQ.isEnglish, audioBlob := none,
                textAnswer := some s, transcription := some s,
                feedback := some "Could not generate feedback due to an error.",
                skipped := false })]
          ∧ (st2.viewState = ViewState.QUESTION
              ∨ st2.viewState = ViewState.DONE)) := by
  have htext : evaluateMockResponse (.text s) question isEnglish oracle
      = .ok (evalFallback false s) := by
    simp [evaluateMockResponse, evalRequest_all_fail oracle false s hfail]
  obtain ⟨data, hdata⟩ := except_isOk_true henc
  refine ⟨htext, ?_, ?_⟩
  · simp [evaluateMockResponse, hdata,
      evalRequest_all_fail oracle true "" hfail, evalFallback]
  · intro st currentQ hview hpend hget
    have heval : evaluateMockResponse (.text s) (qText currentQ)
        currentQ.isEnglish oracle = .ok (evalFallback false s) := by
      simp [evaluateMockResponse, evalRequest_all_fail oracle false s hfail]
    set pend : PendingEval := ⟨currentQ, st.currentIndex, .text s, oracle⟩
    set st1 : SessionState := submittedState (.text s) oracle st currentQ
    have hsub : stepUI (.submit (.text s) oracle) st = some (st1,
        [{ input := .text s, question := qText currentQ, isEnglish := currentQ.isEnglish }]) := by
      rw [stepUI_submit_unfold _ _ _ hview,
        submitAnswer_eq (.text s) oracle st currentQ hget]
    have hp1 : st1.pending = [pend] := by
      simp [st1, pend, submittedState, hpend]
    have hk : st1.pending[0]? = some pend := by rw [hp1]; rfl
    have herase : st1.pending.eraseIdx 0 = [] := by rw [hp1]; rfl
    have hres : resolvePending 0 st1 = moveToNext { st with
        viewState := .PROCESSING
        pending := []
        results := st.results ++ [(st.currentIndex,
          { questionId := currentQ.item.id, questionText := qText currentQ,
            isEnglishRound := currentQ.isEnglish, audioBlob := none,
            textAnswer := some s, transcription := some s,
            feedback := some "Could not generate feedback due to an error.",
            skipped := false })] } := by
      rw [resolvePending_some 0 st1 pend hk, herase]
      have h1 := resolveAnswer_ok_eq pend { st1 with pending := [] }
        (evalFallback false s) heval rfl
      rw [h1]
      rfl
    refine ⟨st1, _, _, [], hsub, stepUI_resolve_eq 0 st1, ?_, ?_⟩
    · rw [hres, moveToNext_results]
    · rw [hres, moveToNext_viewState]
      split
      · exact Or.inl rfl
      · exact Or.inr rfl

/-- C1 counterexample.  A concrete audio payload whose blob encoding
rejects (with error token 7): `evaluateMockResponse` raises that error
outward instead of returning a fallback result. -/
theorem evaluate_answer_raises_cex :
    evaluateMockResponse (.audio badBlob) "Q" false emptyTextOracle
      = .error 7 := rfl

/-- Witness for C1 (amended) at a concrete text answer and the concrete
always-failing environment. -/
theorem evaluate_answer_fallback_spec_witness :
    ((∀ i, i < 3 → ((failOracle i).isOk = false))
      ∧ (goodBlob.encoded.isOk = true))
    ∧ evaluateMockResponse (.text "hello") "Q" false failOracle
      = .ok (Json.obj [("transcription", Json.str "hello"),
          ("feedback", Json.str "Could not generate feedback due to an error.")]) :=
  ⟨⟨fun i _ => rfl, rfl⟩,
    (evaluate_answer_fallback_spec "hello" "Q" false failOracle goodBlob
      (fun i _ => rfl) rfl).1⟩

/-- C6.  Skipping the current round records exactly one result for it, with
`skipped = true`, transcription `"Skipped"` and the fixed feedback text,
advances the session to the next round (or to DONE when it was round 2),
leaves the selection unchanged, and makes no call to the evaluation
gateway. -/
theorem skip_round_spec (st : SessionState) (currentQ : RoundSelection)
    (hview : st.viewState = .QUESTION)
    (hget : st.selectedQuestions[st.currentIndex]? = some currentQ) :
    (stepUI .skip st).map (fun p => p.2) = some []
    ∧ (stepUI .skip st).map (fun p => p.1.results)
        = some (st.results ++ [(st.currentIndex,
            { questionId := currentQ.item.id, questionText := qText currentQ,
              isEnglishRound := currentQ.isEnglish, audioBlob := none,
              textAnswer := none, transcription := some "Skipped",
              feedback := some "Question skipped.", skipped := true })])
    ∧ (stepUI .skip st).map (fun p => p.1.currentIndex)
        = some (if st.currentIndex < 2 then st.currentIndex + 1
                else st.currentIndex)
    ∧ (stepUI .skip st).map (fun p => p.1.viewState)
        = some (if st.currentIndex < 2 then ViewState.QUESTION
                else ViewState.DONE)
    ∧ (stepUI .skip st).map (fun p => p.1.selectedQuestions)
        = some st.selectedQuestions := by
  have hstep : stepUI .skip st = some (moveToNext { st with
      results := st.results ++ [(st.currentIndex,
        { questionId := currentQ.item.id, questionText := qText currentQ,
          isEnglishRound := currentQ.isEnglish, audioBlob := none,
          textAnswer := none, transcription := some "Skipped",
          feedback := some "Question skipped.", skipped := true })] }, []) := by
    simp [stepUI, hview, handleSkip_eq st currentQ hget]
  rw [hstep]
  refine ⟨rfl, ?_, ?_, ?_, ?_⟩
  · simp [moveToNext_results]
  · simp [moveToNext_currentIndex]
  · simp [moveToNext_viewState]
  · simp [moveToNext_selected]

/-- Witness for C6: skipping the first round of the concrete session
advances to round 1 with no gateway call and the synthesized record. -/
theorem skip_round_spec_witness :
    ((initState fixedSelection).viewState = ViewState.QUESTION
      ∧ (initState fixedSelection).selectedQuestions[
          (initState fixedSelection).currentIndex]?
        = some { item := qItemA, isEnglish := false })
    ∧ (stepUI .skip (initState fixedSelection)).map (fun p => p.1.currentIndex)
        = some 1
    ∧ (stepUI .skip (initState fixedSelection)).map (fun p => p.2)
        = some [] := by
  have h := skip_round_spec (initState fixedSelection)
    { item := qItemA, isEnglish := false } rfl rfl
  exact ⟨⟨rfl, rfl⟩, by simpa using h.2.2.1, h.1⟩

/-- C9.  On a secondary-language round the displayed text and the recorded
`questionText` are the question's secondary-language text when it is
present (truthy); when the question has no secondary-language text (the
property is absent or the empty string) both display and record silently
fall back to the primary-language prompt, while the round's
secondary-language flag stays true in the recorded result either way:
skipping the round records that text directly, and answering it captures
the text at submission and records it when the evaluation settles. -/
theorem secondary_language_fallback_spec (rs : RoundSelection)
    (hen : rs.isEnglish = true) :
    (∀ t, rs.item.questionEN = some t → t ≠ "" → qText rs = t)
    ∧ (rs.item.questionEN = none → qText rs = rs.item.question)
    ∧ (rs.item.questionEN = some "" → qText rs = rs.item.question)
    ∧ (∀ st, st.selectedQuestions[st.currentIndex]? = some rs →
        displayQuestion st = some (qText rs))
    ∧ (∀ st st' calls, st.viewState = .QUESTION →
        st.selectedQuestions[st.currentIndex]? = some rs →
        stepUI .skip st = some (st', calls) →
        ∀ p ∈ st'.results, p ∈ st.results
          ∨ (p.2.questionText = qText rs ∧ p.2.isEnglishRound = true))
    ∧ (∀ st input oracle, st.viewState = .QUESTION →
        st.selectedQuestions[st.currentIndex]? = some rs →
        stepUI (.submit input oracle) st
          = some (submittedState input oracle st rs,
            [{ input := input, question := qText rs, isEnglish := rs.isEnglish }]))
    ∧ (∀ st st' calls k p, stepUI (.resolve k) st = some (st', calls) →
        st.pending[k]? = some p → p.capturedQ = rs →
        ∀ q ∈ st'.results, q ∈ st.results
          ∨ (q.2.questionText = qText rs ∧ q.2.isEnglishRound = true)) := by
  refine ⟨?_, ?_, ?_, ?_, ?_, ?_, ?_⟩
  · intro t ht hne
    simp [qText, hen, ht, truthyOpt, hne]
  · intro ht
    simp [qText, hen, ht, truthyOpt]
  · intro ht
    simp [qText, hen, ht, truthyOpt]
  · intro st hget
    simp [displayQuestion, hget]
  · intro st st' calls hview hget hstep p hp
    rw [stepUI_skip_unfold st (Or.inl hview), handleSkip_eq st rs hget] at hstep
    simp only [Option.map_some', Option.some.injEq, Prod.mk.injEq] at hstep
    rcases hstep with ⟨rfl, rfl⟩
    rw [moveToNext_results] at hp
    rcases List.mem_append.mp hp with hold | hnew
    · exact Or.inl hold
    · rcases List.mem_singleton.mp hnew with rfl
      exact Or.inr ⟨rfl, hen⟩
  · intro st input oracle hview hget
    rw [stepUI_submit_unfold input oracle st hview,
      submitAnswer_eq input oracle st rs hget]
  · intro st st' calls k p hstep hk hq q hq2
    rw [stepUI_resolve_eq k st] at hstep
    simp only [Option.some.injEq, Prod.mk.injEq] at hstep
    rcases hstep with ⟨rfl, rfl⟩
    rw [resolvePending_some k st p hk] at hq2
    cases heval : evaluateMockResponse p.input (qText p.capturedQ)
        p.capturedQ.isEnglish p.oracle with
    | ok aiResult =>
      rw [resolveAnswer_results_ok p _ aiResult heval] at hq2
      rcases List.mem_append.mp hq2 with hold | hnew
      · exact Or.inl hold
      · rcases List.mem_singleton.mp hnew with rfl
        refine Or.inr ⟨?_, ?_⟩
        · simp [hq]
        · simp [hq, hen]
    | error err =>
      rw [resolveAnswer_results_err p _ err heval] at hq2
      exact Or.inl hq2

/-- Witness for C9 on a concrete secondary-language round whose question
has a secondary text. -/
theorem secondary_language_fallback_spec_witness :
    (({ item := qItemA, isEnglish := true } : RoundSelection).isEnglish = true
      ∧ ({ item := qItemA, isEnglish := true } : RoundSelection).item.questionEN
        = some "alpha" ∧ "alpha" ≠ "")
    ∧ qText { item := qItemA, isEnglish := true } = "alpha" :=
  ⟨⟨rfl, rfl, by decide⟩,
    (secondary_language_fallback_spec { item := qItemA, isEnglish := true }
      rfl).1 "alpha" rfl (by decide)⟩

/-! ## Helper lemmas: the session invariant -/

theorem advanced_of_question {st : SessionState}
    (hview : st.viewState = .QUESTION) : advanced st = st.currentIndex := by
  simp [advanced, hview]

theorem advanced_of_processing {st : SessionState}
    (hview : st.viewState = .PROCESSING) : advanced st = st.currentIndex := by
  simp [advanced, hview]

theorem advanced_moveToNext (st : SessionState) (hi : st.currentIndex ≤ 2) :
    advanced (moveToNext st) = st.currentIndex + 1 := by
  unfold moveToNext advanced
  by_cases h2 : st.currentIndex < 2
  · simp [h2]
  · simp only [h2, if_false]
    simp
    omega

theorem evaluateMockResponse_error (input : AnswerInput) (q : String)
    (en : Bool) (oracle : Nat → Except Nat GenerateContentResponse) (err : Nat)
    (h : evaluateMockResponse input q en oracle = .error err) :
    ∃ b, input = .audio b ∧ b.encoded = .error err := by
  cases input with
  | text s => simp [evaluateMockResponse] at h
  | audio b =>
    cases hb : b.encoded with
    | ok d => simp [evaluateMockResponse, hb] at h
    | error e =>
      simp only [evaluateMockResponse, hb, Except.error.injEq] at h
      exact ⟨b, rfl, by rw [hb, h]⟩

theorem inv_append_move (st : SessionState) (r : MockRoundResult)
    (hlen : st.selectedQuestions.length = 3)
    (hi : st.currentIndex ≤ 2)
    (hpend : st.pending = [])
    (hcnt : st.results.length ≤ st.currentIndex)
    (hpw : (st.results.map Prod.fst).Pairwise (· < ·))
    (hlt : ∀ p ∈ st.results, p.1 < st.currentIndex) :
    SessionInv (moveToNext
      { st with results := st.results ++ [(st.currentIndex, r)] }) := by
  refine ⟨by rw [moveToNext_selected]; exact hlen, ?_, ?_, ?_, ?_, ?_, ?_, ?_⟩
  · rw [moveToNext_viewState]
    split
    · exact Or.inl rfl
    · exact Or.inr (Or.inr rfl)
  · intro hq
    rw [moveToNext_viewState] at hq
    rw [moveToNext_currentIndex, moveToNext_pending]
    split at hq
    · rename_i h2
      have h2x : st.currentIndex < 2 := h2
      simp only [h2, if_true]
      exact ⟨by omega, hpend⟩
    · exact absurd hq (by simp)
  · intro hp
    rw [moveToNext_viewState] at hp
    split at hp <;> simp at hp
  · intro hd
    rw [moveToNext_viewState] at hd
    rw [moveToNext_currentIndex, moveToNext_pending]
    split at hd
    · exact absurd hd (by simp)
    · rename_i h2
      have h2x : ¬ st.currentIndex < 2 := h2
      simp only [h2, if_false]
      exact ⟨by omega, hpend⟩
  · rw [moveToNext_results, advanced_moveToNext _ (by simpa using hi)]
    simp only [List.length_append, List.length_singleton]
    show st.results.length + 1 ≤ st.currentIndex + 1
    omega
  · rw [moveToNext_results, List.map_append]
    rw [List.pairwise_append]
    refine ⟨hpw, by simp, ?_⟩
    intro a ha b hb
    simp only [List.map_cons, List.map_nil, List.mem_singleton] at hb
    subst hb
    obtain ⟨p, hp, rfl⟩ := List.mem_map.mp ha
    exact hlt p hp
  · intro p hp
    rw [moveToNext_results] at hp
    rw [advanced_moveToNext _ (by simpa using hi)]
    show p.1 < st.currentIndex + 1
    rcases List.mem_append.mp hp with hold | hnew
    · have := hlt p hold
      omega
    · rcases List.mem_singleton.mp hnew with rfl
      simp

theorem inv_move (st : SessionState)
    (hlen : st.selectedQuestions.length = 3)
    (hi : st.currentIndex ≤ 2)
    (hpend : st.pending = [])
    (hcnt : st.results.length ≤ st.currentIndex)
    (hpw : (st.results.map Prod.fst).Pairwise (· < ·))
    (hlt : ∀ p ∈ st.results, p.1 < st.currentIndex) :
    SessionInv (moveToNext st) := by
  have hadv' : advanced (moveToNext st) = st.currentIndex + 1 :=
    advanced_moveToNext st hi
  refine ⟨by rw [moveToNext_selected]; exact hlen, ?_, ?_, ?_, ?_, ?_, ?_, ?_⟩
  · rw [moveToNext_viewState]
    split
    · exact Or.inl rfl
    · exact Or.inr (Or.inr rfl)
  · intro hq
    rw [moveToNext_viewState] at hq
    rw [moveToNext_currentIndex, moveToNext_pending]
    split at hq
    · rename_i h2
      simp only [h2, if_true]
      exact ⟨by omega, hpend⟩
    · exact absurd hq (by simp)
  · intro hp
    rw [moveToNext_viewState] at hp
    split at hp <;> simp at hp
  · intro hd
    rw [moveToNext_viewState] at hd
    rw [moveToNext_currentIndex, moveToNext_pending]
    split at hd
    · exact absurd hd (by simp)
    · rename_i h2
      simp only [h2, if_false]
      exact ⟨by omega, hpend⟩
  · rw [moveToNext_results, hadv']
    omega
  · rw [moveToNext_results]
    exact hpw
  · intro p hp
    rw [moveToNext_results] at hp
    rw [hadv']
    have := hlt p hp
    omega

theorem range_append_move (st : SessionState) (r : MockRoundResult)
    (hi : st.currentIndex ≤ 2)
    (hr : st.results.map Prod.fst = List.range st.currentIndex) :
    (moveToNext { st with
        results := st.results ++ [(st.currentIndex, r)] }).results.map Prod.fst
      = List.range (advanced (moveToNext { st with
          results := st.results ++ [(st.currentIndex, r)] })) := by
  rw [moveToNext_results, advanced_moveToNext _ (by simpa using hi)]
  simp only []
  rw [List.map_append, hr]
  simp [List.range_succ]

theorem stepUI_preserves_inv (e : Event) (st st' : SessionState)
    (calls : List EvalCall) (hInv : SessionInv st)
    (hseq : eventSequential e st) (hstep : stepUI e st = some (st', calls)) :
    SessionInv st'
    ∧ ((st.results.map Prod.fst = List.range (advanced st)
          ∧ ∀ p ∈ st.pending, inputEncodes p.input = true) →
        eventEncodes e = true →
        (st'.results.map Prod.fst = List.range (advanced st')
          ∧ ∀ p ∈ st'.pending, inputEncodes p.input = true)) := by
  obtain ⟨hlen, hvw, hq, hproc, hdone, hcnt, hpw, hlt⟩ := hInv
  cases e with
  | skip =>
    by_cases hgate : st.viewState = ViewState.QUESTION
      ∨ st.viewState = ViewState.PROCESSING
    · have hview : st.viewState = ViewState.QUESTION := by
        rcases hgate with h | h
        · exact h
        · obtain ⟨_, p0, hp0, _⟩ := hproc h
          have hpnil : st.pending = [] := hseq
          rw [hp0] at hpnil
          exact absurd hpnil (by simp)
      have hi : st.currentIndex ≤ 2 := (hq hview).1
      have hadv : advanced st = st.currentIndex := advanced_of_question hview
      obtain ⟨q, hget⟩ : ∃ q, st.selectedQuestions[st.currentIndex]? = some q :=
        ⟨_, List.getElem?_eq_getElem (by rw [hlen]; omega)⟩
      have hpnil : st.pending = [] := hseq
      rw [stepUI_skip_unfold st hgate, handleSkip_eq st q hget] at hstep
      simp only [Option.map_some', Option.some.injEq, Prod.mk.injEq] at hstep
      rcases hstep with ⟨rfl, rfl⟩
      refine ⟨inv_append_move st _ hlen hi hpnil (hadv ▸ hcnt) hpw
        (by rw [hadv] at hlt; exact hlt), ?_⟩
      rintro ⟨hr, henc⟩ _
      refine ⟨range_append_move st _ hi (by rw [hadv] at hr; exact hr), ?_⟩
      rw [moveToNext_pending]
      intro p hp
      rw [hpnil] at hp
      cases hp
    · rw [stepUI_skip_id st hgate] at hstep
      simp only [Option.some.injEq, Prod.mk.injEq] at hstep
      rcases hstep with ⟨rfl, rfl⟩
      exact ⟨⟨hlen, hvw, hq, hproc, hdone, hcnt, hpw, hlt⟩, fun h _ => h⟩
  | submit input oracle =>
    by_cases hview : st.viewState = ViewState.QUESTION
    · have hi : st.currentIndex ≤ 2 := (hq hview).1
      obtain ⟨q, hget⟩ : ∃ q, st.selectedQuestions[st.currentIndex]? = some q :=
        ⟨_, List.getElem?_eq_getElem (by rw [hlen]; omega)⟩
      rw [stepUI_submit_unfold input oracle st hview,
        submitAnswer_eq input oracle st q hget] at hstep
      simp only [Option.some.injEq, Prod.mk.injEq] at hstep
      rcases hstep with ⟨rfl, rfl⟩
      have hadv : advanced st = st.currentIndex := advanced_of_question hview
      constructor
      · refine ⟨hlen, Or.inr (Or.inl rfl), ?_, ?_, ?_, ?_, hpw, ?_⟩
        · intro h
          exact absurd h (by simp [submittedState])
        · intro _
          have hpnil : st.pending = [] := hseq
          refine ⟨hi, ⟨q, st.currentIndex, input, oracle⟩, ?_, rfl⟩
          simp [submittedState, hpnil]
        · intro h
          exact absurd h (by simp [submittedState])
        · simpa [advanced, submittedState] using (hadv ▸ hcnt)
        · intro p hp
          have := hlt p hp
          simpa [advanced, submittedState] using (hadv ▸ this)
      · rintro ⟨hr, henc⟩ he
        refine ⟨by simpa [advanced, submittedState] using (hadv ▸ hr), ?_⟩
        intro p hp
        have hpnil : st.pending = [] := hseq
        simp only [submittedState, hpnil, List.nil_append,
          List.mem_singleton] at hp
        subst hp
        exact he
    · rw [stepUI_submit_id input oracle st hview] at hstep
      simp only [Option.some.injEq, Prod.mk.injEq] at hstep
      rcases hstep with ⟨rfl, rfl⟩
      exact ⟨⟨hlen, hvw, hq, hproc, hdone, hcnt, hpw, hlt⟩, fun h _ => h⟩
  | resolve k =>
    rw [stepUI_resolve_eq k st] at hstep
    simp only [Option.some.injEq, Prod.mk.injEq] at hstep
    rcases hstep with ⟨rfl, rfl⟩
    cases hk : st.pending[k]? with
    | none =>
      rw [resolvePending_none k st hk]
      exact ⟨⟨hlen, hvw, hq, hproc, hdone, hcnt, hpw, hlt⟩, fun h _ => h⟩
    | some p =>
      have hne : st.pending ≠ [] := by
        intro hemp
        rw [hemp] at hk
        simp at hk
      have hviewP : st.viewState = ViewState.PROCESSING := by
        rcases hvw with h | h | h
        · exact absurd (hq h).2 hne
        · exact h
        · exact absurd (hdone h).2 hne
      obtain ⟨hi, p0, hp0, hci⟩ := hproc hviewP
      have hpp : p0 = p := by
        rw [hp0] at hk
        cases k with
        | zero =>
          simp only [List.getElem?_cons_zero, Option.some.injEq] at hk
          exact hk
        | succ k =>
          simp at hk
      subst hpp
      have hk0 : k = 0 := by
        rw [hp0] at hk
        cases k with
        | zero => rfl
        | succ k => simp at hk
      subst hk0
      have herase : st.pending.eraseIdx 0 = [] := by
        rw [hp0]
        rfl
      rw [resolvePending_some 0 st p0 hk, herase]
      have hadv : advanced st = st.currentIndex := advanced_of_processing hviewP
      have hci' : p0.capturedIndex
          = ({ st with pending := ([] : List PendingEval) } : SessionState).currentIndex := hci
      cases heval : evaluateMockResponse p0.input (qText p0.capturedQ)
          p0.capturedQ.isEnglish p0.oracle with
      | ok aiResult =>
        rw [resolveAnswer_ok_eq p0 _ aiResult heval hci']
        refine ⟨inv_append_move _ _ hlen hi rfl (hadv ▸ hcnt) hpw
          (by rw [hadv] at hlt; exact hlt), ?_⟩
        rintro ⟨hr, henc⟩ _
        refine ⟨range_append_move _ _ hi (by rw [hadv] at hr; exact hr), ?_⟩
        rw [moveToNext_pending]
        intro pp hpp2
        cases hpp2
      | error err =>
        rw [resolveAnswer_err_eq p0 _ err heval hci']
        refine ⟨inv_move _ hlen hi rfl (hadv ▸ hcnt) hpw
          (by rw [hadv] at hlt; exact hlt), ?_⟩
        rintro ⟨hr, henc⟩ _
        obtain ⟨b, hb1, hb2⟩ :=
          evaluateMockResponse_error p0.input (qText p0.capturedQ)
            p0.capturedQ.isEnglish p0.oracle err heval
        have hie : inputEncodes p0.input = true := henc p0 (by rw [hp0]; simp)
        rw [hb1] at hie
        simp [inputEncodes, hb2, Except.isOk, Except.toBool] at hie

theorem runTrace_inv (events : List Event) :
    ∀ st st', SessionInv st → WellQueued st events →
      runTrace st events = some st' →
      SessionInv st'
      ∧ ((st.results.map Prod.fst = List.range (advanced st)
            ∧ ∀ p ∈ st.pending, inputEncodes p.input = true) →
          (∀ e ∈ events, eventEncodes e = true) →
          (st'.results.map Prod.fst = List.range (advanced st')
            ∧ ∀ p ∈ st'.pending, inputEncodes p.input = true)) := by
  induction events with
  | nil =>
    intro st st' hInv _ hrun
    simp only [runTrace, Option.some.injEq] at hrun
    subst hrun
    exact ⟨hInv, fun h _ => h⟩
  | cons e es ih =>
    intro st st' hInv hwq hrun
    rw [runTrace] at hrun
    cases hstep : stepUI e st with
    | none => rw [hstep] at hrun; cases hrun
    | some pr =>
      rw [hstep] at hrun
      obtain ⟨st1, calls⟩ := pr
      obtain ⟨h1, h2⟩ := stepUI_preserves_inv e st st1 calls hInv hwq.1 hstep
      obtain ⟨h3, h4⟩ := ih st1 st' h1 (hwq.2 st1 calls hstep) hrun
      refine ⟨h3, fun hr hall => ?_⟩
      exact h4 (h2 hr (hall e (List.mem_cons_self e es)))
        (fun e' he' => hall e' (List.mem_cons_of_mem e he'))

theorem advanced_le_three {st : SessionState} (hInv : SessionInv st) :
    advanced st ≤ 3 := by
  obtain ⟨_, hvw, hq, hproc, hdone, _, _, _⟩ := hInv
  rcases hvw with h | h | h
  · rw [advanced_of_question h]
    have := (hq h).1
    omega
  · rw [advanced_of_processing h]
    have := (hproc h).1
    omega
  · simp [advanced, h]

/-- C2, amended.  In every sequentially-used session run — one in which the
candidate never presses skip (nor submits a new answer) while an evaluation
is still in flight — the recorded result sequence has length at most 3 and
its entries carry strictly increasing round indices: a result for round
k+1 is never recorded before round k's, and no round is recorded twice.
If moreover no evaluation call rejects (no audio answer whose blob
encoding fails — the one path whose catch block advances without
recording), the recorded round indices are exactly 0,…,advanced−1: every
round advanced past has exactly one result, with no gaps.  Outside that
discipline the bounds fail: the skip button stays live while an evaluation
is in flight, and a skip then makes the source record the in-flight round
twice (see the counterexample); an audio answer whose encoding fails is
advanced past with no result, leaving a gap. -/
theorem session_results_ordered (sq : List RoundSelection)
    (events : List Event) (st' : SessionState) (h3 : sq.length = 3)
    (hrun : runTrace (initState sq) events = some st')
    (hwq : WellQueued (initState sq) events) :
    st'.results.length ≤ 3
    ∧ (st'.results.map Prod.fst).Pairwise (· < ·)
    ∧ advanced st' ≤ 3
    ∧ (∀ p ∈ st'.results, p.1 < advanced st')
    ∧ ((∀ e ∈ events, eventEncodes e = true) →
        st'.results.map Prod.fst = List.range (advanced st')) := by
  have hInv0 : SessionInv (initState sq) := by
    refine ⟨h3, Or.inl rfl, fun _ => by simp [initState], ?_, ?_, ?_, ?_, ?_⟩
    · intro hp
      simp [initState] at hp
    · intro hd
      simp [initState] at hd
    · simp [initState, advanced]
    · simp [initState]
    · intro p hp
      simp [initState] at hp
  obtain ⟨hInv, hrange⟩ := runTrace_inv events (initState sq) st' hInv0 hwq hrun
  have hle3 : advanced st' ≤ 3 := advanced_le_three hInv
  refine ⟨le_trans hInv.2.2.2.2.2.1 hle3, hInv.2.2.2.2.2.2.1, hle3,
    hInv.2.2.2.2.2.2.2, fun hall => (hrange ⟨?_, ?_⟩ hall).1⟩
  · simp [initState, advanced]
  · intro p hp
    simp [initState] at hp

/-- C2 counterexample.  The skip button is rendered while an evaluation is
in flight: submitting a text answer for round 0 and clicking skip during
the spinner records a skipped result for round 0 and advances, and when the
in-flight evaluation then settles it records a second result for round 0
(and its captured `moveToNext` advances again, jumping over round 1).  The
final result sequence carries round indices [0, 0]: round 0 is recorded
twice, falsifying strict per-round ordering. -/
theorem session_double_record_cex :
    (runTrace (initState fixedSelection)
        [Event.submit (.text "hi") okEvalOracle, Event.skip,
         Event.resolve 0]).map
      (fun st => (st.results.map Prod.fst, st.currentIndex, st.viewState))
    = some ([0, 0], 2, ViewState.QUESTION) := rfl

/-- One audio answer whose encoding fails: round 0 is advanced past
(`currentIndex` becomes 1) but no result is recorded — the gap path that
the amended C2 excludes by conditioning on resolving evaluations. -/
theorem session_gap_example :
    (runTrace (initState fixedSelection)
        [Event.submit (.audio badBlob) failOracle, Event.resolve 0]).map
      (fun st => (st.currentIndex, st.results, st.viewState))
    = some (1, ([] : List (Nat × MockRoundResult)), ViewState.QUESTION) := rfl

/-- Witness for C2 (amended): a one-skip run of the concrete session is
well-queued, has at most 3 results, and its recorded round indices are
exactly `range (advanced)` since no evaluation rejected. -/
theorem session_results_ordered_witness :
    (fixedSelection.length = 3
      ∧ runTrace (initState fixedSelection) [Event.skip] = some oneSkipState
      ∧ WellQueued (initState fixedSelection) [Event.skip])
    ∧ oneSkipState.results.length ≤ 3
    ∧ oneSkipState.results.map Prod.fst = List.range (advanced oneSkipState) :=
  ⟨⟨rfl, rfl, ⟨rfl, fun _ _ _ => trivial⟩⟩,
    (session_results_ordered fixedSelection [Event.skip] oneSkipState rfl rfl
      ⟨rfl, fun _ _ _ => trivial⟩).1,
    (session_results_ordered fixedSelection [Event.skip] oneSkipState rfl rfl
      ⟨rfl, fun _ _ _ => trivial⟩).2.2.2.2
      (fun e he => by rw [List.mem_singleton.mp he]; rfl)⟩

/-! ## Question selection and app-level completion -/

/-- C3, amended.  For a pool of pairwise-distinct questions (of size ≥ 3,
forced by the shuffle's shape), whatever permutation the random-comparator
shuffle produces, the selection is exactly 3 entries, all drawn from the
pool with no question repeated, and the language flags are primary, primary,
secondary in that order regardless of draw order.  (When the pool merely
*contains* 3 unique items but also holds duplicate entries, a shuffle can
place a duplicate pair in the first three slots and the session repeats a
question — see the counterexample.) -/
theorem start_selection_spec (questions : List QuestionItem)
    (q0 q1 q2 : QuestionItem) (rest : List QuestionItem)
    (hperm : (q0 :: q1 :: q2 :: rest).Perm questions)
    (hnd : questions.Nodup) :
    selectQuestions questions (q0 :: q1 :: q2 :: rest)
      = .ok [{ item := q0, isEnglish := false },
             { item := q1, isEnglish := false },
             { item := q2, isEnglish := true }]
    ∧ ([{ item := q0, isEnglish := false }, { item := q1, isEnglish := false },
        { item := q2, isEnglish := true }] : List RoundSelection).length = 3
    ∧ (([{ item := q0, isEnglish := false }, { item := q1, isEnglish := false },
        { item := q2, isEnglish := true }] : List RoundSelection).map
          RoundSelection.item).Nodup
    ∧ (∀ rs ∈ ([{ item := q0, isEnglish := false },
        { item := q1, isEnglish := false },
        { item := q2, isEnglish := true }] : List RoundSelection),
          rs.item ∈ questions)
    ∧ ([{ item := q0, isEnglish := false }, { item := q1, isEnglish := false },
        { item := q2, isEnglish := true }] : List RoundSelection).map
          RoundSelection.isEnglish = [false, false, true] := by
  have hlen : 3 ≤ questions.length := by
    have := hperm.length_eq
    simp only [List.length_cons] at this
    omega
  have hshufnd : (q0 :: q1 :: q2 :: rest).Nodup := (hperm.nodup_iff).mpr hnd
  refine ⟨?_, rfl, ?_, ?_, rfl⟩
  · simp [selectQuestions, Nat.not_lt.mpr hlen]
  · have hsub : List.Sublist [q0, q1, q2] (q0 :: q1 :: q2 :: rest) :=
      List.take_sublist 3 (q0 :: q1 :: q2 :: rest)
    have h3 : ([q0, q1, q2] : List QuestionItem).Nodup := hsub.nodup hshufnd
    simpa using h3
  · intro rs hrs
    have hsub : List.Sublist [q0, q1, q2] (q0 :: q1 :: q2 :: rest) :=
      List.take_sublist 3 (q0 :: q1 :: q2 :: rest)
    have hm : rs.item ∈ [q0, q1, q2] := by
      simp only [List.mem_cons, List.not_mem_nil, or_false] at hrs
      rcases hrs with h | h | h <;> subst h <;> simp
    exact hperm.mem_iff.mp (hsub.subset hm)

/-- C3 counterexample.  `dupPool` contains 3 unique items (a, b, c) but
holds item a twice; the identity shuffle (a legal permutation under the
random comparator) yields a selection repeating a within one session. -/
theorem selection_repeat_cex :
    3 ≤ dupPool.dedup.length
    ∧ dupPool.Perm dupPool
    ∧ selectQuestions dupPool dupPool
      = .ok [{ item := qItemA, isEnglish := false },
             { item := qItemA, isEnglish := false },
             { item := qItemB, isEnglish := true }]
    ∧ ¬ (([{ item := qItemA, isEnglish := false },
          { item := qItemA, isEnglish := false },
          { item := qItemB, isEnglish := true }] : List RoundSelection).map
            RoundSelection.item).Nodup :=
  ⟨by decide, List.Perm.refl _, rfl, by decide⟩

/-- Witness for C3 (amended) on a concrete distinct 3-question pool with
the identity shuffle. -/
theorem start_selection_spec_witness :
    ([qItemA, qItemB, qItemC] : List QuestionItem).Nodup
    ∧ selectQuestions [qItemA, qItemB, qItemC] [qItemA, qItemB, qItemC]
        = .ok [{ item := qItemA, isEnglish := false },
               { item := qItemB, isEnglish := false },
               { item := qItemC, isEnglish := true }] :=
  ⟨by decide,
    (start_selection_spec [qItemA, qItemB, qItemC] qItemA qItemB qItemC []
      (List.Perm.refl _) (by decide)).1⟩

/-- C7.  Starting a session over a pool of fewer than 3 questions fails
immediately with the insufficient-pool outcome: no selection is produced
and the QUESTION state is never entered. -/
theorem insufficient_pool_spec (questions shuffled : List QuestionItem)
    (h : questions.length < 3) :
    mockInterviewInit questions shuffled
      = .error .insufficientQuestionPool := by
  simp [mockInterviewInit, selectQuestions, h, Except.map]

/-- Witness for C7 on a concrete one-question pool. -/
theorem insufficient_pool_spec_witness :
    ([qItemA] : List QuestionItem).length < 3
    ∧ mockInterviewInit [qItemA] []
        = .error .insufficientQuestionPool :=
  ⟨by decide, insufficient_pool_spec [qItemA] [] (by decide)⟩

/-- C10.  Handing a finished (or early-exited-with-data) result sequence to
the application appends exactly one new session record holding the full
sequence to the history, switches to the history view, and maps the
question bank so that every question whose id occurs among the results has
its practice count bumped by exactly one — once per session however many
rounds reference it, skipped rounds included — while a question not
referenced, and every field other than the practice count, is unchanged
(the record update touches only `practiceCount`). -/
theorem mock_complete_spec (now : Nat) (results : List MockRoundResult)
    (st : AppStateModel) :
    (handleMockComplete now results st).view = AppView.MOCK_HISTORY
    ∧ (handleMockComplete now results st).mockHistory
        = st.mockHistory ++ [({ id := "session-" ++ toString now, timestamp := now, rounds := results } : MockSession)]
    ∧ (handleMockComplete now results st).questions.length
        = st.questions.length
    ∧ (∀ (i : Nat) (q : QuestionItem), st.questions[i]? = some q →
        (handleMockComplete now results st).questions[i]?
          = some (if (∃ r ∈ results, r.questionId = q.id)
              then { q with practiceCount := some (q.practiceCount.getD 0 + 1) }
              else q)) := by
  refine ⟨rfl, rfl, by simp [handleMockComplete], ?_⟩
  intro i q hq
  simp only [handleMockComplete]
  rw [List.getElem?_map, hq]
  simp only [Option.map_some']
  by_cases hex : ∃ r ∈ results, r.questionId = q.id
  · rw [if_pos hex]
    obtain ⟨r, hr, hrid⟩ := hex
    have hc : (results.map (fun r => r.questionId)).contains q.id = true :=
      List.elem_iff.mpr (List.mem_map.mpr ⟨r, hr, hrid⟩)
    simp only [hc, if_true]
  · rw [if_neg hex]
    have hc : (results.map (fun r => r.questionId)).contains q.id = false := by
      rw [Bool.eq_false_iff]
      intro hcon
      obtain ⟨r, hr, hrid⟩ := List.mem_map.mp (List.elem_iff.mp hcon)
      exact hex ⟨r, hr, hrid⟩
    simp only [hc]
    simp

/-- Witness for C10 at a concrete two-question bank and a one-round result
referencing question a: the history gains the one new session and question
a's practice count is bumped from 0 to 1. -/
theorem mock_complete_spec_witness :
    (appStateFixture.questions[0]? = some qItemA
      ∧ appStateFixture.questions[1]? = some qItemB)
    ∧ (handleMockComplete 5 [roundResultFixture] appStateFixture).mockHistory
        = [({ id := "session-" ++ toString 5, timestamp := 5, rounds := [roundResultFixture] } : MockSession)]
    ∧ (handleMockComplete 5 [roundResultFixture] appStateFixture).questions[0]?
        = some { qItemA with practiceCount := some 1 }
    ∧ (handleMockComplete 5 [roundResultFixture] appStateFixture).questions[1]?
        = some qItemB := by
  have h := mock_complete_spec 5 [roundResultFixture] appStateFixture
  refine ⟨⟨rfl, rfl⟩, by simpa using h.2.1, ?_, ?_⟩
  · have h0 := h.2.2.2 0 qItemA rfl
    rw [if_pos ⟨roundResultFixture, List.mem_singleton.mpr rfl, rfl⟩] at h0
    exact h0
  · have h1 := h.2.2.2 1 qItemB rfl
    have hneg : ¬ ∃ r ∈ [roundResultFixture], r.questionId = qItemB.id := by
      rintro ⟨r, hr, hrid⟩
      rcases List.mem_singleton.mp hr with rfl
      exact absurd hrid (by decide)
    rw [if_neg hneg] at h1
    exact h1

end Ferry
